import Mathlib

/-!
Verification of `maestroflame/driver_pinn.py` (a PINN training driver).

The driver is embedded shallowly: tensors become functions `ℕ → ℕ → ℚ`
(batch index, channel index), the autodiff engine's gradient buffer
becomes an explicit `Option`-valued state, floating-point division whose
finiteness is at stake becomes an `Option ℚ` (`none` = non-finite IEEE
result), and the filesystem becomes an explicit map from paths to file
contents.  Python's `int()` truncation toward zero is modelled exactly.
-/

namespace DriverPinn

/-- Python's `int()` applied to a float/rational: truncation toward zero. -/
def pyTrunc (q : ℚ) : ℤ :=
  if q < 0 then -⌊-q⌋ else ⌊q⌋

/-- `nnuc = int(react_data.output_data.shape[1]/2 - 1)` (driver_pinn.py line 96),
where `w` is the output tensor's channel width. -/
def nnucOf (w : ℕ) : ℤ :=
  pyTrunc ((w : ℚ) / 2 - 1)

/-- Reconstruction of the output channel width from a species count,
per the data model's layout `2*(nnuc+1)`. -/
def outputWidthOf (k : ℤ) : ℤ :=
  2 * (k + 1)

/-- `Num_test = int(N*percent_test/100)` (driver_pinn.py line 119). -/
def numTest (N percent : ℕ) : ℤ :=
  pyTrunc ((N : ℚ) * (percent : ℚ) / 100)

/-- `Num_train = N - Num_test` (driver_pinn.py line 120). -/
def numTrain (N percent : ℕ) : ℤ :=
  (N : ℤ) - numTest N percent

lemma pyTrunc_intCast (k : ℤ) : pyTrunc (k : ℚ) = k := by
  unfold pyTrunc
  rcases lt_or_le (k : ℚ) 0 with h | h
  · rw [if_pos h]
    rw [show (-(k : ℚ)) = ((-k : ℤ) : ℚ) by push_cast; ring]
    rw [Int.floor_intCast]
    ring
  · rw [if_neg (not_lt.mpr h), Int.floor_intCast]

lemma pyTrunc_of_nonneg {q : ℚ} (h : 0 ≤ q) : pyTrunc q = ⌊q⌋ := by
  unfold pyTrunc
  rw [if_neg (not_lt.mpr h)]

/-- Float division as it affects finiteness: an IEEE division by zero yields
`inf` or `nan` (never a finite number), so it is modelled as `none`; a
division by a nonzero divisor is finite and is modelled exactly. -/
def divF (x d : ℚ) : Option ℚ :=
  if d = 0 then none else some (x / d)

/-- One iteration of the per-batch component-loss accumulation
(driver_pinn.py lines 301-307 in the train loop, 352-357 in the test loop):
`if batch_idx == 0: component_loss = loss_c else: component_loss = component_loss + loss_c`.
`c i` is the batch-`i` component loss (one channel shown; channels accumulate
independently); `none` means the Python variable is not yet bound.  The
`none` fall-through in the else-branch would be a Python `NameError`; it is
unreachable because batch 0 runs first. -/
def componentStep (c : ℕ → ℚ) (st : Option ℚ) (i : ℕ) : Option ℚ :=
  if i = 0 then some (c i)
  else
    match st with
    | some a => some (a + c i)
    | none => none

/-- The accumulator after iterating batches `0, …, B-1` in order. -/
def componentAccum (c : ℕ → ℚ) (B : ℕ) : Option ℚ :=
  (List.range B).foldl (componentStep c) none

/-- After `for batch_idx, … in enumerate(loader)` over `B ≥ 1` batches, the
Python loop variable `batch_idx` holds the last index reached, `B - 1`. -/
def lastBatchIdx (B : ℕ) : ℕ := B - 1

/-- `component_losses_train.append(component_loss/batch_idx)`
(driver_pinn.py line 315; the test loop does the same at line 361): the
accumulated component loss divided by the final value of `batch_idx`. -/
def epochComponentEntry (c : ℕ → ℚ) (B : ℕ) : Option ℚ :=
  match componentAccum c B with
  | some a => divF a ((lastBatchIdx B : ℕ) : ℚ)
  | none => none

lemma componentAccum_eq_sum (c : ℕ → ℚ) (B : ℕ) (hB : 1 ≤ B) :
    componentAccum c B = some (∑ i ∈ Finset.range B, c i) := by
  induction B with
  | zero => omega
  | succ B ih =>
    rcases Nat.eq_or_lt_of_le hB with h | h
    · have hB0 : B = 0 := by omega
      subst hB0
      simp [componentAccum, List.range_succ, componentStep, Finset.sum_range_one]
    · have hB1 : 1 ≤ B := by omega
      have hstep : componentAccum c (B + 1)
          = componentStep c (componentAccum c B) B := by
        unfold componentAccum
        rw [List.range_succ, List.foldl_append, List.foldl_cons, List.foldl_nil]
      rw [hstep, ih hB1]
      unfold componentStep
      rw [if_neg (by omega)]
      rw [Finset.sum_range_succ]

/-- One training batch appends the total training loss `loss.item()` to the
epoch's `losses` list (driver_pinn.py line 279); the list starts empty at the
top of the epoch (line 251). -/
def appendLosses (losses : List ℚ) (vals : List ℚ) : List ℚ :=
  vals.foldl (fun acc v => acc ++ [v]) losses

/-- `sum(losses)/len(losses)`. -/
def listMean (l : List ℚ) : ℚ := l.sum / l.length

/-- `cost_per_epoc_test.append(sum(losses)/len(losses))` (driver_pinn.py
line 360): `losses` is initialised once at the top of the epoch (line 251),
receives each train batch's total loss (line 279), is not reset before the
test loop, and then receives each test batch's plotting loss (line 330). -/
def costPerEpocTestEntry (batchTotals plotLosses : List ℚ) : ℚ :=
  listMean (appendLosses (appendLosses [] batchTotals) plotLosses)

lemma appendLosses_eq (l0 vals : List ℚ) : appendLosses l0 vals = l0 ++ vals := by
  induction vals generalizing l0 with
  | nil => simp [appendLosses]
  | cons v vs ih =>
    unfold appendLosses at *
    rw [List.foldl_cons, ih]
    simp

/-- The state of `output_dir` when the driver starts: whether the path is an
existing directory, and the names `os.listdir` would return. -/
structure OutDirState where
  isDir : Bool
  entries : List String

/-- What the driver's prologue did: whether `sys.exit()` ran, and which
paths it created or modified. -/
structure PrologueResult where
  exited : Bool
  pathsTouched : List String

/-- driver_pinn.py lines 51-74: if `output_dir` is an existing non-empty
directory, print two messages (to the original stdout; the log file does not
exist yet) and `sys.exit()`; otherwise create the directory when absent and
install the `Logger`, which opens `log.txt` in append mode. -/
def driverPrologue (st : OutDirState) : PrologueResult :=
  if st.isDir ∧ st.entries.length ≠ 0 then
    { exited := true, pathsTouched := [] }
  else
    { exited := false,
      pathsTouched := (if st.isDir then [] else ["output_dir"]) ++ ["log.txt"] }

/-- A filesystem fragment: path → contents of the file there (`none` =
absent).  Contents are abstracted to a natural number identifying the
serialized weights. -/
abbrev FileSys : Type := String → Option ℕ

/-- Writing a file (`torch.save`): the path now holds `w`. -/
def fsWrite (fs : FileSys) (p : String) (w : ℕ) : FileSys :=
  fun q => if q = p then some w else fs q

/-- `os.rename(src, dst)`: `dst` now holds what `src` held (silently
replacing any previous `dst`), and `src` is gone. -/
def fsRename (fs : FileSys) (src dst : String) : FileSys :=
  fun q => if q = dst then fs src else if q = src then none else fs q

/-- driver_pinn.py lines 372-379 (`SAVE_MODEL`): if a file exists at the
checkpoint path, rename it to `path + ".backup"`, then save the current
weights `w` to the path. -/
def saveModel (fs : FileSys) (path : String) (w : ℕ) : FileSys :=
  let fs1 :=
    match fs path with
    | some _ => fsRename fs path (path ++ ".backup")
    | none => fs
  fsWrite fs1 path w

/-- The filesystem with no checkpoint and no backup. -/
def emptyFS : FileSys := fun _ => none

/-- A batched tensor of plain values: entry at (sample `b`, channel `j`). -/
abbrev Tensor2 : Type := ℕ → ℕ → ℚ

/-- A network's Jacobian oracle: `jac bp n b j` is the partial derivative of
`prediction[bp, n]` with respect to `data[b, j]` at the current batch. -/
abbrev Jacobian : Type := ℕ → ℕ → ℕ → ℕ → ℚ

/-- What `prediction[:, n].backward(torch.ones_like(prediction[:, n]))`
accumulates into `data.grad`: the vector-Jacobian product with a seed of
ones over the batch, `(b, j) ↦ Σ_bp ∂prediction[bp, n]/∂data[b, j]`. -/
def vjp (batch : ℕ) (jac : Jacobian) (n : ℕ) : Tensor2 :=
  fun b j => ∑ bp ∈ Finset.range batch, jac bp n b j

/-- The differentiator's loop state: the `dXdt` tensor built so far and the
`data.grad` buffer (`none` = no gradient exists yet). -/
structure DiffState where
  dXdt : Tensor2
  grad : Option Tensor2

/-- Iteration `n` of driver_pinn.py lines 267-274: zero `data.grad` if it
exists (skipped when it is still `None`), backpropagate the seed of ones
through `prediction[:, n]` with `retain_graph=True` (accumulating the VJP
into `data.grad`, creating the buffer if absent), copy the gradient's first
input channel into `dXdt[:, n]`, then zero `data.grad` again. -/
def diffStep (batch : ℕ) (jac : Jacobian) (st : DiffState) (n : ℕ) : DiffState :=
  let gradZeroed : Option Tensor2 :=
    match st.grad with
    | none => none
    | some _ => some (fun _ _ => 0)
  let gradAfter : Tensor2 :=
    fun b j => (gradZeroed.getD (fun _ _ => 0)) b j + vjp batch jac n b j
  { dXdt := fun b m => if m = n then gradAfter b 0 else st.dXdt b m,
    grad := some (fun _ _ => 0) }

/-- `dXdt = torch.zeros_like(prediction)` followed by
`for n in range(nnuc+1): …` (driver_pinn.py lines 266-274); `K = nnuc+1` is
the prediction's channel width. -/
def diffRun (batch : ℕ) (jac : Jacobian) : ℕ → DiffState
  | 0 => { dXdt := fun _ _ => 0, grad := none }
  | K + 1 => diffStep batch jac (diffRun batch jac K) K

/-- Jacobian of a network that acts per sample as the identity on its first
input channels: `∂prediction[bp, n]/∂data[b, j] = 1` iff `bp = b ∧ n = j`. -/
def jacId : Jacobian :=
  fun bp n b j => if bp = b ∧ n = j then 1 else 0

lemma diffRun_dXdt_eq (batch : ℕ) (jac : Jacobian) (K : ℕ) :
    (∀ b n, (diffRun batch jac K).dXdt b n
        = if n < K then vjp batch jac n b 0 else 0) ∧
      (diffRun batch jac K).grad
        = (if K = 0 then none else some (fun _ _ => 0)) := by
  induction K with
  | zero =>
    refine ⟨fun b n => ?_, rfl⟩
    simp [diffRun]
  | succ K ih =>
    obtain ⟨ihd, ihg⟩ := ih
    constructor
    · intro b n
      show (diffStep batch jac (diffRun batch jac K) K).dXdt b n = _
      unfold diffStep
      rcases Nat.eq_zero_or_pos K with hK | hK
      · subst hK
        rw [ihg]
        by_cases hn : n = 0
        · subst hn
          simp [Option.getD]
        · simp only [if_neg hn]
          rw [ihd b n]
          have h1 : ¬ n < 0 := Nat.not_lt_zero n
          have h2 : ¬ n < 1 := by omega
          simp [h1, h2]
      · rw [ihg, if_neg (by omega)]
        by_cases hn : n = K
        · subst hn
          simp [Option.getD, Nat.lt_succ_self]
        · simp only [if_neg hn]
          rw [ihd b n]
          by_cases hlt : n < K
          · rw [if_pos hlt, if_pos (by omega)]
          · rw [if_neg hlt, if_neg (by omega)]
    · rfl

lemma vjp_jacId (batch b n : ℕ) (hb : b < batch) :
    vjp batch jacId n b 0 = if n = 0 then 1 else 0 := by
  unfold vjp jacId
  by_cases hn : n = 0
  · subst hn
    rw [if_pos rfl]
    rw [Finset.sum_congr rfl (fun bp _ => by
      show (if bp = b ∧ (0 : ℕ) = 0 then (1 : ℚ) else 0) = if bp = b then 1 else 0
      simp)]
    rw [Finset.sum_ite_eq' (Finset.range batch) b (fun _ => (1 : ℚ))]
    simp [Finset.mem_range.mpr hb]
  · rw [if_neg hn]
    apply Finset.sum_eq_zero
    intro bp _
    simp [fun h : (n : ℕ) = 0 => hn h, hn]

/-- A scalar tracked by the autodiff engine: its value and its tangent — the
directional derivative with respect to one model-parameter direction.  A
tensor with all tangents zero has no computation-graph connection to the
parameters, so backpropagation through it yields zero parameter gradient. -/
structure Dual where
  val : ℚ
  tan : ℚ

instance : Add Dual := ⟨fun a b => ⟨a.val + b.val, a.tan + b.tan⟩⟩

lemma Dual.add_def (a b : Dual) : a + b = ⟨a.val + b.val, a.tan + b.tan⟩ := rfl

/-- `.item()`: the bare Python float, detached from the graph. -/
def Dual.item (d : Dual) : ℚ := d.val

/-- A batched tensor of tracked scalars. -/
abbrev TensorD : Type := ℕ → ℕ → Dual

/-- The column slice `t[:, :k]` (channels at or beyond `k` are absent and
modelled as the constant 0). -/
def sliceTo (k : ℕ) (t : TensorD) : TensorD :=
  fun b j => if j < k then t b j else ⟨0, 0⟩

/-- The column slice `t[:, k:]`, reindexed from channel 0. -/
def sliceFrom (k : ℕ) (t : TensorD) : TensorD :=
  fun b j => t b (j + k)

/-- `criterion(data, pred, dXdt, actual)` (driver_pinn.py lines 203-237):
computes `loss1 = log_loss(pred, actual[:, :nnuc+1])`,
`loss2 = nn.L1Loss()(dXdt, actual[:, nnuc+1:])`,
`loss3 = signed_loss_function(dXdt, actual[:, nnuc+1:])`,
`loss4 = relative_loss(pred, actual[:, :nnuc+1])`,
`loss5 = loss_mass_fraction(pred)`, and returns the backpropagated total
`loss1 + loss2 + loss3 + loss5` together with
`loss_arr = [loss1.item(), loss2.item(), loss3.item(), loss5.item()]`.
The five sub-loss functions live in `losses.py` / `torch.nn` and are
parameters of the embedding, exactly as they are imports of the driver. -/
def criterion (nnuc : ℕ)
    (log_loss L1Loss signed_loss relative_loss : TensorD → TensorD → Dual)
    (loss_mass_fraction : TensorD → Dual)
    (data pred dXdt actual : TensorD) : Dual × List ℚ :=
  let loss1 := log_loss pred (sliceTo (nnuc + 1) actual)
  let loss2 := L1Loss dXdt (sliceFrom (nnuc + 1) actual)
  let loss3 := signed_loss dXdt (sliceFrom (nnuc + 1) actual)
  let loss4 := relative_loss pred (sliceTo (nnuc + 1) actual)
  let loss5 := loss_mass_fraction pred
  (loss1 + loss2 + loss3 + loss5,
    [loss1.item, loss2.item, loss3.item, loss5.item])

/-- A tensor with no computation-graph connection to the model parameters:
every entry carries tangent 0.  The `dXdt` handed to `criterion` is such a
tensor: it is filled from `data.grad.clone()[:, 0]` (line 273) — the
gradient buffer records no autograd history — and `dXdt.requires_grad =
True` (line 276) merely re-marks the graph-free tensor as a fresh leaf.
The batch of targets, which never requires gradients, is the same. -/
def detached (v : Tensor2) : TensorD :=
  fun b j => ⟨v b j, 0⟩

/-- A concrete state-loss function used to instantiate the gradient theorem:
reads one entry of the prediction. -/
def wLogLoss : TensorD → TensorD → Dual := fun p _ => p 0 0

/-- A concrete L1-style loss used to instantiate the gradient theorem:
reads one entry of its first argument. -/
def wL1Loss : TensorD → TensorD → Dual := fun x _ => x 0 0

/-- A concrete sign-loss used to instantiate the gradient theorem:
reads one entry of its second argument. -/
def wSignedLoss : TensorD → TensorD → Dual := fun _ y => y 0 0

/-- A concrete relative loss used to instantiate the gradient theorem. -/
def wRelLoss : TensorD → TensorD → Dual := fun _ _ => ⟨9, 9⟩

/-- A concrete mass-fraction loss used to instantiate the gradient theorem. -/
def wMassFrac : TensorD → Dual := fun p => p 0 1

/-- A concrete prediction batch (value 1, parameter tangent 2 everywhere). -/
def wPred : TensorD := fun _ _ => ⟨1, 2⟩

/-- A concrete input batch. -/
def wData : TensorD := fun _ _ => ⟨0, 0⟩

/-- Concrete derivative values. -/
def wDVals : Tensor2 := fun _ _ => 5

/-- Concrete target values. -/
def wTVals : Tensor2 := fun _ _ => 7

end DriverPinn

open DriverPinn

/-- C5: for every even output width `w` (the data model guarantees
`w = 2*(nnuc+1)`), the derived species count `nnuc = int(w/2 - 1)` equals
`w/2 - 1` exactly, and reconstructing the width as `2*(nnuc+1)` returns `w`. -/
theorem nnuc_roundtrip (w : ℕ) (h : Even w) :
    nnucOf w = (w : ℤ) / 2 - 1 ∧ outputWidthOf (nnucOf w) = (w : ℤ) := by
  obtain ⟨m, hm⟩ := h
  subst hm
  have hq : ((m + m : ℕ) : ℚ) / 2 - 1 = ((m - 1 : ℤ) : ℚ) := by
    push_cast; ring
  have h1 : nnucOf (m + m) = (m : ℤ) - 1 := by
    unfold nnucOf
    rw [hq, pyTrunc_intCast]
  constructor
  · rw [h1]
    have : ((m + m : ℕ) : ℤ) = 2 * (m : ℤ) := by push_cast; ring
    rw [this, Int.mul_ediv_cancel_left _ (by norm_num)]
  · rw [h1]
    unfold outputWidthOf
    push_cast
    ring

/-- Witness for C5 at width 8: nnuc = 3, round trip returns 8. -/
theorem nnuc_roundtrip_witness :
    Even 8 ∧ (nnucOf 8 = (8 : ℤ) / 2 - 1 ∧ outputWidthOf (nnucOf 8) = (8 : ℤ)) :=
  ⟨by decide, nnuc_roundtrip 8 (by decide)⟩

/-- C6: for every dataset size `N ≥ 1` and percentage `0 < percent < 100`,
the computed split satisfies `Num_test = floor(N*percent/100)` and
`Num_test + Num_train = N`. -/
theorem split_sizes (N percent : ℕ) (hN : 1 ≤ N) (hp0 : 0 < percent)
    (hp1 : percent < 100) :
    numTest N percent = ⌊(N : ℚ) * (percent : ℚ) / 100⌋ ∧
      numTest N percent + numTrain N percent = (N : ℤ) := by
  constructor
  · unfold numTest
    exact pyTrunc_of_nonneg (by positivity)
  · unfold numTrain
    ring

/-- Witness for C6 at N = 17, percent = 10. -/
theorem split_sizes_witness :
    (1 ≤ 17 ∧ 0 < 10 ∧ 10 < 100) ∧
      (numTest 17 10 = ⌊(17 : ℚ) * (10 : ℚ) / 100⌋ ∧
        numTest 17 10 + numTrain 17 10 = (17 : ℤ)) :=
  ⟨⟨by decide, by decide, by decide⟩, split_sizes 17 10 (by decide) (by decide) (by decide)⟩

/-- C4: the per-epoch component-loss history entry divides the accumulated
per-batch component losses by the last batch index reached, `B - 1`, not by
the batch count `B`; on three batches of constant loss 1 this yields 3/2
where dividing by the count would yield 1. -/
theorem component_entry_divides_by_last_index (c : ℕ → ℚ) (B : ℕ) (hB : 1 ≤ B) :
    epochComponentEntry c B = divF (∑ i ∈ Finset.range B, c i) ((B - 1 : ℕ) : ℚ) ∧
      epochComponentEntry (fun _ => (1 : ℚ)) 3 = some (3 / 2) ∧
      divF (3 : ℚ) ((3 : ℕ) : ℚ) = some 1 ∧ (3 / 2 : ℚ) ≠ (1 : ℚ) := by
  refine ⟨?_, ?_, ?_, by norm_num⟩
  · unfold epochComponentEntry
    rw [componentAccum_eq_sum c B hB]
    rfl
  · have h3 : componentAccum (fun _ => (1 : ℚ)) 3 = some 3 := by
      rw [componentAccum_eq_sum (fun _ => (1 : ℚ)) 3 (by norm_num)]
      norm_num
    unfold epochComponentEntry
    rw [h3]
    unfold divF lastBatchIdx
    norm_num
  · unfold divF
    norm_num

/-- Witness for C4 at B = 3 with constant batch loss 1. -/
theorem component_entry_divides_by_last_index_witness :
    (1 : ℕ) ≤ 3 ∧
      (epochComponentEntry (fun _ => (1 : ℚ)) 3
          = divF (∑ i ∈ Finset.range 3, (1 : ℚ)) ((3 - 1 : ℕ) : ℚ) ∧
        epochComponentEntry (fun _ => (1 : ℚ)) 3 = some (3 / 2) ∧
        divF (3 : ℚ) ((3 : ℕ) : ℚ) = some 1 ∧ (3 / 2 : ℚ) ≠ (1 : ℚ)) :=
  ⟨by norm_num, component_entry_divides_by_last_index (fun _ => (1 : ℚ)) 3 (by norm_num)⟩

/-- C10: with exactly one batch the loop's last batch index is 0, so the
appended history entry divides by zero and is not a finite number (`none`);
with at least two batches the entry is a finite number (`isSome`). -/
theorem single_batch_entry_not_finite (c : ℕ → ℚ) (B : ℕ) (hB : 2 ≤ B) :
    lastBatchIdx 1 = 0 ∧ epochComponentEntry c 1 = none ∧
      (epochComponentEntry c B).isSome = true := by
  refine ⟨rfl, ?_, ?_⟩
  · unfold epochComponentEntry
    rw [componentAccum_eq_sum c 1 (by norm_num)]
    unfold divF lastBatchIdx
    norm_num
  · have hne : ((B - 1 : ℕ) : ℚ) ≠ 0 := Nat.cast_ne_zero.mpr (by omega)
    unfold epochComponentEntry
    rw [componentAccum_eq_sum c B (by omega)]
    simp [divF, lastBatchIdx, hne]

/-- Witness for C10 at B = 2 with constant batch loss 5. -/
theorem single_batch_entry_not_finite_witness :
    (2 : ℕ) ≤ 2 ∧
      (lastBatchIdx 1 = 0 ∧ epochComponentEntry (fun _ => (5 : ℚ)) 1 = none ∧
        (epochComponentEntry (fun _ => (5 : ℚ)) 2).isSome = true) :=
  ⟨by norm_num, single_batch_entry_not_finite (fun _ => (5 : ℚ)) 2 (by norm_num)⟩

/-- C9: the value appended to `cost_per_epoc_test` is the mean over the
concatenation of the epoch's per-batch training total losses and the test
batches' plotting losses, because the `losses` list is shared between the
two loops and never reset in between; on train losses [0] and test plotting
losses [1] it is 1/2 where the mean of the test losses alone is 1. -/
theorem cost_per_epoc_test_mixes_train_losses (batchTotals plotLosses : List ℚ) :
    costPerEpocTestEntry batchTotals plotLosses
        = (batchTotals ++ plotLosses).sum / ((batchTotals ++ plotLosses).length : ℚ) ∧
      costPerEpocTestEntry [(0 : ℚ)] [(1 : ℚ)] = 1 / 2 ∧
      listMean [(1 : ℚ)] = 1 ∧ (1 / 2 : ℚ) ≠ (1 : ℚ) := by
  refine ⟨?_, ?_, ?_, by norm_num⟩
  · unfold costPerEpocTestEntry
    rw [appendLosses_eq, appendLosses_eq, List.nil_append]
    rfl
  · unfold costPerEpocTestEntry
    rw [appendLosses_eq, appendLosses_eq, List.nil_append]
    unfold listMean
    norm_num
  · unfold listMean
    norm_num

/-- C7: when `output_dir` exists and is non-empty, the driver's prologue
exits immediately and touches no file at all — no metric file, log file, or
checkpoint is created or modified. -/
theorem run_guard_exits_without_writes (st : OutDirState)
    (h1 : st.isDir = true) (h2 : st.entries ≠ []) :
    (driverPrologue st).exited = true ∧ (driverPrologue st).pathsTouched = [] := by
  have hlen : st.entries.length ≠ 0 := by
    simpa [List.length_eq_zero] using h2
  constructor <;> simp [driverPrologue, h1, hlen]

/-- Witness for C7: a directory containing one file. -/
theorem run_guard_exits_without_writes_witness :
    ((⟨true, ["stale.txt"]⟩ : OutDirState).isDir = true ∧
        (⟨true, ["stale.txt"]⟩ : OutDirState).entries ≠ []) ∧
      ((driverPrologue ⟨true, ["stale.txt"]⟩).exited = true ∧
        (driverPrologue ⟨true, ["stale.txt"]⟩).pathsTouched = []) :=
  ⟨⟨rfl, by simp⟩,
    run_guard_exits_without_writes ⟨true, ["stale.txt"]⟩ rfl (by simp)⟩

/-- C8: when a checkpoint already exists at the target path, saving renames
it to `path ++ ".backup"` before writing; starting from an empty directory,
saving weights `w1` and then `w2` leaves exactly the backup path holding
`w1`, the primary path holding `w2`, and nothing else. -/
theorem checkpoint_backup_before_write (path : String) (w1 w2 : ℕ)
    (hpb : path ++ ".backup" ≠ path) :
    (∀ (fs : FileSys) (w : ℕ), fs path = some w →
        saveModel fs path w2 (path ++ ".backup") = some w ∧
          saveModel fs path w2 path = some w2 ∧
          ∀ q, q ≠ path → q ≠ path ++ ".backup" → saveModel fs path w2 q = fs q) ∧
      saveModel (saveModel emptyFS path w1) path w2 (path ++ ".backup") = some w1 ∧
      saveModel (saveModel emptyFS path w1) path w2 path = some w2 ∧
      ∀ q, q ≠ path → q ≠ path ++ ".backup" →
        saveModel (saveModel emptyFS path w1) path w2 q = none := by
  have general : ∀ (fs : FileSys) (w : ℕ), fs path = some w →
      saveModel fs path w2 (path ++ ".backup") = some w ∧
        saveModel fs path w2 path = some w2 ∧
        ∀ q, q ≠ path → q ≠ path ++ ".backup" → saveModel fs path w2 q = fs q := by
    intro fs w hw
    refine ⟨?_, ?_, ?_⟩
    · simp [saveModel, hw, fsWrite, fsRename, hpb]
    · simp [saveModel, hw, fsWrite]
    · intro q hq1 hq2
      simp [saveModel, hw, fsWrite, fsRename, hq1, hq2]
  have hfirst : saveModel emptyFS path w1 path = some w1 := by
    simp [saveModel, emptyFS, fsWrite]
  obtain ⟨hA, hB, hC⟩ := general (saveModel emptyFS path w1) w1 hfirst
  refine ⟨general, hA, hB, ?_⟩
  intro q hq1 hq2
  rw [hC q hq1 hq2]
  simp [saveModel, emptyFS, fsWrite, hq1]

/-- Witness for C8 at the driver's checkpoint path with weights 1 and 2. -/
theorem checkpoint_backup_before_write_witness :
    ("my_model_pinn.pt" ++ ".backup" ≠ "my_model_pinn.pt") ∧
      ((∀ (fs : FileSys) (w : ℕ), fs "my_model_pinn.pt" = some w →
          saveModel fs "my_model_pinn.pt" 2 ("my_model_pinn.pt" ++ ".backup") = some w ∧
            saveModel fs "my_model_pinn.pt" 2 "my_model_pinn.pt" = some 2 ∧
            ∀ q, q ≠ "my_model_pinn.pt" → q ≠ "my_model_pinn.pt" ++ ".backup" →
              saveModel fs "my_model_pinn.pt" 2 q = fs q) ∧
        saveModel (saveModel emptyFS "my_model_pinn.pt" 1) "my_model_pinn.pt" 2
            ("my_model_pinn.pt" ++ ".backup") = some 1 ∧
        saveModel (saveModel emptyFS "my_model_pinn.pt" 1) "my_model_pinn.pt" 2
            "my_model_pinn.pt" = some 2 ∧
        ∀ q, q ≠ "my_model_pinn.pt" → q ≠ "my_model_pinn.pt" ++ ".backup" →
          saveModel (saveModel emptyFS "my_model_pinn.pt" 1) "my_model_pinn.pt" 2 q = none) :=
  ⟨by decide, checkpoint_backup_before_write "my_model_pinn.pt" 1 2 (by decide)⟩

/-- C1: for every batch and every network Jacobian, the differentiator
returns `dXdt` shaped like the prediction whose column `n < K` holds the
ones-seeded vector-Jacobian product of prediction channel `n` with respect
to the first input channel (columns at or beyond `K` keep their
`zeros_like` value), and for a network that is the identity on the first
`K` input channels, channel 0 of `dXdt` is 1 and every other channel is 0. -/
theorem differentiator_extracts_time_derivative
    (batch K b n : ℕ) (jac : Jacobian) (hn : n < K) (hb : b < batch) :
    (diffRun batch jac K).dXdt b n = vjp batch jac n b 0 ∧
      (∀ m, K ≤ m → (diffRun batch jac K).dXdt b m = 0) ∧
      (diffRun batch jacId K).dXdt b n = (if n = 0 then 1 else 0) := by
  refine ⟨?_, ?_, ?_⟩
  · rw [(diffRun_dXdt_eq batch jac K).1 b n, if_pos hn]
  · intro m hm
    rw [(diffRun_dXdt_eq batch jac K).1 b m, if_neg (by omega)]
  · rw [(diffRun_dXdt_eq batch jacId K).1 b n, if_pos hn, vjp_jacId batch b n hb]

/-- Witness for C1 at batch = 2, K = 3, sample 0, channel 0, Jacobian `jacId`. -/
theorem differentiator_extracts_time_derivative_witness :
    ((0 : ℕ) < 3 ∧ (0 : ℕ) < 2) ∧
      ((diffRun 2 jacId 3).dXdt 0 0 = vjp 2 jacId 0 0 0 ∧
        (∀ m, 3 ≤ m → (diffRun 2 jacId 3).dXdt 0 m = 0) ∧
        (diffRun 2 jacId 3).dXdt 0 0 = (if (0 : ℕ) = 0 then 1 else 0)) :=
  ⟨⟨by decide, by decide⟩,
    differentiator_extracts_time_derivative 2 3 0 0 jacId (by decide) (by decide)⟩

/-- C2: for every input batch, prediction, derivative batch and target
batch (and any choice of the imported sub-loss functions), `criterion`
returns the backpropagated total `loss1 + loss2 + loss3 + loss5` — state
loss, L1 derivative loss, derivative-sign loss and mass-conservation loss —
together with the breakdown list of their bare `.item()` scalars, and the
result does not depend on the relative loss, which is computed but excluded
from the sum. -/
theorem criterion_total_and_breakdown (nnuc : ℕ)
    (ll l1 sl rl rl2 : TensorD → TensorD → Dual) (mf : TensorD → Dual)
    (data pred dXdt actual : TensorD) :
    criterion nnuc ll l1 sl rl mf data pred dXdt actual
        = (ll pred (sliceTo (nnuc + 1) actual)
            + l1 dXdt (sliceFrom (nnuc + 1) actual)
            + sl dXdt (sliceFrom (nnuc + 1) actual) + mf pred,
           [(ll pred (sliceTo (nnuc + 1) actual)).item,
            (l1 dXdt (sliceFrom (nnuc + 1) actual)).item,
            (sl dXdt (sliceFrom (nnuc + 1) actual)).item,
            (mf pred).item]) ∧
      criterion nnuc ll l1 sl rl2 mf data pred dXdt actual
        = criterion nnuc ll l1 sl rl mf data pred dXdt actual :=
  ⟨rfl, rfl⟩

/-- C3: the `dXdt` handed to `criterion` is a detached clone of the input's
accumulated gradient (every entry has zero parameter tangent), so the L1
derivative loss and the sign loss — whose arguments are `dXdt` and the
gradient-free targets — carry zero parameter gradient, and the tangent of
the backpropagated total equals that of the state loss plus the
mass-conservation loss alone.  The two hypotheses say that the sub-loss
functions respect the autodiff engine's chain rule: a differentiable
function of inputs with zero tangent has zero tangent. -/
theorem derivative_losses_zero_parameter_gradient (nnuc : ℕ)
    (ll l1 sl rl : TensorD → TensorD → Dual) (mf : TensorD → Dual)
    (data pred : TensorD) (dVals tVals : Tensor2)
    (hL1 : ∀ x y : TensorD, (∀ b j, (x b j).tan = 0) →
      (∀ b j, (y b j).tan = 0) → (l1 x y).tan = 0)
    (hSigned : ∀ x y : TensorD, (∀ b j, (x b j).tan = 0) →
      (∀ b j, (y b j).tan = 0) → (sl x y).tan = 0) :
    (∀ b j, (detached dVals b j).tan = 0) ∧
      (l1 (detached dVals) (sliceFrom (nnuc + 1) (detached tVals))).tan = 0 ∧
      (sl (detached dVals) (sliceFrom (nnuc + 1) (detached tVals))).tan = 0 ∧
      ((criterion nnuc ll l1 sl rl mf data pred (detached dVals)
            (detached tVals)).1).tan
        = (ll pred (sliceTo (nnuc + 1) (detached tVals))).tan + (mf pred).tan := by
  have hd : ∀ b j, (detached dVals b j).tan = 0 := fun b j => rfl
  have ht : ∀ b j, (sliceFrom (nnuc + 1) (detached tVals) b j).tan = 0 :=
    fun b j => rfl
  have h2 := hL1 (detached dVals) (sliceFrom (nnuc + 1) (detached tVals)) hd ht
  have h3 := hSigned (detached dVals) (sliceFrom (nnuc + 1) (detached tVals)) hd ht
  refine ⟨hd, h2, h3, ?_⟩
  unfold criterion
  simp only [Dual.add_def]
  simp [h2, h3]

/-- Witness for C3 at nnuc = 1 with concrete sub-loss functions and batches. -/
theorem derivative_losses_zero_parameter_gradient_witness :
    ((∀ x y : TensorD, (∀ b j, (x b j).tan = 0) →
        (∀ b j, (y b j).tan = 0) → (wL1Loss x y).tan = 0) ∧
      ∀ x y : TensorD, (∀ b j, (x b j).tan = 0) →
        (∀ b j, (y b j).tan = 0) → (wSignedLoss x y).tan = 0) ∧
      ((∀ b j, (detached wDVals b j).tan = 0) ∧
        (wL1Loss (detached wDVals) (sliceFrom (1 + 1) (detached wTVals))).tan = 0 ∧
        (wSignedLoss (detached wDVals) (sliceFrom (1 + 1) (detached wTVals))).tan = 0 ∧
        ((criterion 1 wLogLoss wL1Loss wSignedLoss wRelLoss wMassFrac wData wPred
              (detached wDVals) (detached wTVals)).1).tan
          = (wLogLoss wPred (sliceTo (1 + 1) (detached wTVals))).tan
              + (wMassFrac wPred).tan) :=
  ⟨⟨fun x y hx _ => hx 0 0, fun x y _ hy => hy 0 0⟩,
    derivative_losses_zero_parameter_gradient 1 wLogLoss wL1Loss wSignedLoss
      wRelLoss wMassFrac wData wPred wDVals wTVals
      (fun x y hx _ => hx 0 0) (fun x y _ hy => hy 0 0)⟩
